import Mathlib

/-!
Shallow embedding of the managed external-process registry in
src/src-tauri/src/process_manager.rs: a table of managed child
processes keyed by connection id, with spawn, line-framed send and
receive, kill, list and get operations.

Modelling conventions:
* Pipe contents are byte strings, represented as lists of characters.
* The outcome of the OS spawn call is an explicit environment
  parameter (SpawnResult), since the Rust code receives it from the
  operating system; likewise the fresh uuid minted for the connection
  id is a parameter.
* The Rust Result error strings are represented by the inductive
  PError, one constructor per distinct format string in the source.
* Each command takes the table as an argument and returns the
  resulting table, mirroring the mutation of the shared
  ProcessMap state.
* read_mcp_response returns none when the underlying read_line call
  would suspend (no full line buffered and the stream still open).
* Write and flush failures on a live pipe (broken pipe after the
  child exits out-of-band) are operating-system events outside the
  table and are not modelled; no claim below depends on them.
-/

namespace ProcessManager

/-- Byte-string contents of pipes and messages. -/
abbrev Str := List Char

/-- The line delimiter appended by send and recognised by read_line. -/
def newline : Char := '\n'

/-- Mirrors the Rust struct ProcessInfo. -/
structure ProcessInfo where
  connection_id : String
  process_type : String
  command : String
  args : List String
deriving Repr, DecidableEq

/-- The write end of the child stdin pipe (Rust ChildStdin) together
with the bytes written to it so far. -/
structure InPipe where
  buf : Str
deriving Repr, DecidableEq

/-- The buffered reader over the child stdout pipe (Rust
BufReader of ChildStdout): the bytes produced by the child and not yet
consumed, and whether the child has closed its end of the stream. -/
structure OutPipe where
  buf : Str
  closed : Bool
deriving Repr, DecidableEq

/-- Mirrors the Rust struct ManagedProcess; the child field keeps the
pid of the underlying OS process. -/
structure ManagedProcess where
  info : ProcessInfo
  child : Nat
  stdin : Option InPipe
  stdout_reader : Option OutPipe
deriving Repr, DecidableEq

/-- Mirrors ProcessMap, a HashMap from String to ManagedProcess, as an
association list holding at most one entry per key. -/
abbrev ProcessMap := List (String × ManagedProcess)

/-- Mirrors create_process_map: the empty table. -/
def create_process_map : ProcessMap := []

/-- HashMap get: the value at the first (hence only) entry whose key
matches. -/
def mapGet : ProcessMap → String → Option ManagedProcess
  | [], _ => none
  | e :: rest, k => if e.1 = k then some e.2 else mapGet rest k

/-- HashMap remove: drops every entry at the key (there is at most
one). -/
def mapRemove : ProcessMap → String → ProcessMap
  | [], _ => []
  | e :: rest, k => if e.1 = k then mapRemove rest k else e :: mapRemove rest k

/-- HashMap insert: replaces any entry at the key. -/
def mapInsert (st : ProcessMap) (k : String) (v : ManagedProcess) : ProcessMap :=
  (k, v) :: mapRemove st k

/-- One constructor per distinct error format string in
process_manager.rs, each carrying the interpolated data. -/
inductive PError where
  | notFound (connection_id : String)
  | spawnFailed (command : String)
  | captureStdinFailed
  | captureStdoutFailed
  | stdinNotAvailable
  | stdoutNotAvailable
  | killFailed
deriving Repr, DecidableEq

/-- A successfully spawned OS child: its pid and whether each piped
standard stream was captured (the Option fields of the Rust Child). -/
structure ChildHandles where
  pid : Nat
  stdinPipe : Bool
  stdoutPipe : Bool
deriving Repr, DecidableEq

/-- Outcome of the OS call Command::spawn, an environment input. -/
inductive SpawnResult where
  | launchError
  | spawned (c : ChildHandles)
deriving Repr, DecidableEq

/-- Whether the environment makes the spawn fail: the launch itself
fails, or one of the two pipe endpoints cannot be captured. -/
def spawnFails : SpawnResult → Bool
  | SpawnResult.launchError => true
  | SpawnResult.spawned c => !c.stdinPipe || !c.stdoutPipe

/-- Outcome of the OS kill request on the child, an environment
input. -/
inductive KillOutcome where
  | ok
  | failed
deriving Repr, DecidableEq

/-- Mirrors spawn_process: spawns the child, takes ownership of the
stdin and stdout pipes, and only then inserts the new entry into the
table; every failure returns before the table is touched. -/
def spawn_process (env : SpawnResult) (uuid : String) (process_type command : String)
    (args : List String) (st : ProcessMap) : Except PError String × ProcessMap :=
  match env with
  | SpawnResult.launchError => (Except.error (PError.spawnFailed command), st)
  | SpawnResult.spawned c =>
    if c.stdinPipe then
      if c.stdoutPipe then
        let info : ProcessInfo :=
          { connection_id := uuid, process_type := process_type
            command := command, args := args }
        let mp : ManagedProcess :=
          { info := info, child := c.pid
            stdin := some { buf := [] }
            stdout_reader := some { buf := [], closed := false } }
        (Except.ok uuid, mapInsert st uuid mp)
      else (Except.error PError.captureStdoutFailed, st)
    else (Except.error PError.captureStdinFailed, st)

/-- Mirrors spawn_mcp_server: spawn_process with process type "mcp". -/
def spawn_mcp_server (env : SpawnResult) (uuid command : String)
    (args : List String) (st : ProcessMap) : Except PError String × ProcessMap :=
  spawn_process env uuid "mcp" command args st

/-- Mirrors spawn_cli_agent: spawn_process with process type "cli". -/
def spawn_cli_agent (env : SpawnResult) (uuid tool : String)
    (args : List String) (st : ProcessMap) : Except PError String × ProcessMap :=
  spawn_process env uuid "cli" tool args st

/-- Mirrors send_mcp_message: looks the entry up, appends a single
newline to the message and writes the result to the entry stdin pipe,
then flushes. -/
def send_mcp_message (connection_id : String) (message : Str)
    (st : ProcessMap) : Except PError Unit × ProcessMap :=
  match mapGet st connection_id with
  | none => (Except.error (PError.notFound connection_id), st)
  | some p =>
    match p.stdin with
    | none => (Except.error PError.stdinNotAvailable, st)
    | some ip =>
      let ip2 : InPipe := { buf := ip.buf ++ message ++ [newline] }
      (Except.ok (), mapInsert st connection_id { p with stdin := some ip2 })

/-- Takes the first line of a byte string: the prefix up to and
including the first newline, and the rest; none when no newline is
present. -/
def takeLine : Str → Option (Str × Str)
  | [] => none
  | c :: cs =>
    if c = newline then some ([c], cs)
    else
      match takeLine cs with
      | none => none
      | some (l, r) => some (c :: l, r)

/-- The read_line contract of the buffered line reader: return one
full line, delimiter included, when one is buffered; at end of stream
return whatever remains (possibly empty); otherwise suspend (none). -/
def readLineFrom (p : OutPipe) : Option (Str × OutPipe) :=
  match takeLine p.buf with
  | some (l, r) => some (l, { p with buf := r })
  | none => if p.closed then some (p.buf, { p with buf := [] }) else none

/-- Mirrors read_mcp_response: looks the entry up and reads one line
from the entry stdout reader; none models the command suspended inside
read_line. -/
def read_mcp_response (connection_id : String)
    (st : ProcessMap) : Option (Except PError Str × ProcessMap) :=
  match mapGet st connection_id with
  | none => some (Except.error (PError.notFound connection_id), st)
  | some p =>
    match p.stdout_reader with
    | none => some (Except.error PError.stdoutNotAvailable, st)
    | some op =>
      match readLineFrom op with
      | none => none
      | some (line, op2) =>
        some (Except.ok line, mapInsert st connection_id { p with stdout_reader := some op2 })

/-- Mirrors kill_process: removes the entry from the table first, then
requests termination of the child; a termination failure is reported
after the removal has already happened. -/
def kill_process (connection_id : String) (ko : KillOutcome)
    (st : ProcessMap) : Except PError Unit × ProcessMap :=
  match mapGet st connection_id with
  | none => (Except.error (PError.notFound connection_id), st)
  | some _ =>
    let st2 := mapRemove st connection_id
    match ko with
    | KillOutcome.ok => (Except.ok (), st2)
    | KillOutcome.failed => (Except.error PError.killFailed, st2)

/-- Mirrors list_processes: the descriptors of all entries. -/
def list_processes (st : ProcessMap) : List ProcessInfo :=
  st.map (fun e => e.2.info)

/-- Mirrors get_process_info: the descriptor of the entry at the
handle. -/
def get_process_info (connection_id : String)
    (st : ProcessMap) : Except PError ProcessInfo :=
  match mapGet st connection_id with
  | none => Except.error (PError.notFound connection_id)
  | some p => Except.ok p.info

/-- Sequential sends of a list of messages on one handle, stopping at
the first failure. -/
def sendAll (h : String) : List Str → ProcessMap → Except PError Unit × ProcessMap
  | [], st => (Except.ok (), st)
  | m :: rest, st =>
    match send_mcp_message h m st with
    | (Except.ok _, st2) => sendAll h rest st2
    | r => r

/-- A fixed number of successive receive calls on one handle,
collecting the returned lines; none when any call fails or suspends. -/
def receiveAll (h : String) : Nat → ProcessMap → Option (List Str × ProcessMap)
  | 0, st => some ([], st)
  | Nat.succ n, st =>
    match read_mcp_response h st with
    | some (Except.ok line, st2) =>
      match receiveAll h n st2 with
      | some (ls, st3) => some (line :: ls, st3)
      | none => none
    | _ => none

/-- Models the child of a script that echoes each input line back
unchanged: every byte written to the child stdin is moved, unchanged
and in order, to its stdout buffer. -/
def echoPump (p : ManagedProcess) : ManagedProcess :=
  match p.stdin, p.stdout_reader with
  | some ip, some op =>
    { p with stdin := some { buf := [] }
             stdout_reader := some { op with buf := op.buf ++ ip.buf } }
  | _, _ => p

/-- The echo child at the handle consumes its pending input and echoes
it back on its stdout. -/
def echoStep (h : String) (st : ProcessMap) : ProcessMap :=
  match mapGet st h with
  | none => st
  | some p => mapInsert st h (echoPump p)

/-- The framed concatenation of a list of messages: each message
followed by one newline, as produced by successive sends. -/
def framed : List Str → Str
  | [] => []
  | m :: rest => m ++ newline :: framed rest

/-- Tables reachable from the empty table through the commands of the
registry: the two spawn wrappers, send, receive and kill. -/
inductive Reachable : ProcessMap → Prop where
  | init : Reachable create_process_map
  | spawnMcp (env : SpawnResult) (uuid command : String) (args : List String)
      {st : ProcessMap} : Reachable st →
      Reachable (spawn_mcp_server env uuid command args st).2
  | spawnCli (env : SpawnResult) (uuid tool : String) (args : List String)
      {st : ProcessMap} : Reachable st →
      Reachable (spawn_cli_agent env uuid tool args st).2
  | sendMsg (cid : String) (m : Str) {st : ProcessMap} : Reachable st →
      Reachable (send_mcp_message cid m st).2
  | readResp (cid : String) {st st2 : ProcessMap} {r : Except PError Str} :
      Reachable st → read_mcp_response cid st = some (r, st2) → Reachable st2
  | killProc (cid : String) (ko : KillOutcome) {st : ProcessMap} : Reachable st →
      Reachable (kill_process cid ko st).2

/-- The invariant of every entry a command ever stores: the key of the
entry is the connection id of its descriptor, the process type is one
of the two tags used by the spawn wrappers, and both pipe ends are
present. -/
def goodEntry (k : String) (p : ManagedProcess) : Prop :=
  p.info.connection_id = k ∧
  (p.info.process_type = "mcp" ∨ p.info.process_type = "cli") ∧
  p.stdin.isSome = true ∧ p.stdout_reader.isSome = true

/-- All entries of the table satisfy the entry invariant. -/
def goodTable (st : ProcessMap) : Prop :=
  ∀ e ∈ st, goodEntry e.1 e.2

/-- Atomic actions of one command execution, in program order. -/
inductive Action where
  | lockAcquire
  | lockRelease
  | lookup (h : String)
  | writeStdin (h : String)
  | flushStdin (h : String)
  | blockingReadLine (h : String)
  | removeEntry (h : String)
  | killChild (h : String)
  | insertEntry (h : String)
deriving Repr, DecidableEq

/-- Program-order actions of read_mcp_response as written in the
source: the table mutex guard is acquired at the top of the function
and dropped only at return, after the awaited read_line. -/
def read_steps (h : String) : List Action :=
  [Action.lockAcquire, Action.lookup h, Action.blockingReadLine h, Action.lockRelease]

/-- Program-order actions of send_mcp_message as written: lookup,
write and flush all happen under the table mutex guard. -/
def send_steps (h : String) : List Action :=
  [Action.lockAcquire, Action.lookup h, Action.writeStdin h, Action.flushStdin h,
   Action.lockRelease]

/-- Program-order actions of kill_process as written: the removal and
the awaited child kill happen under the table mutex guard. -/
def kill_steps (h : String) : List Action :=
  [Action.lockAcquire, Action.lookup h, Action.removeEntry h, Action.killChild h,
   Action.lockRelease]

/-- Lock state after one action. -/
def nextHeld (s : Action) (held : Bool) : Bool :=
  match s with
  | Action.lockAcquire => true
  | Action.lockRelease => false
  | _ => held

/-- Lock state after a sequence of actions. -/
def heldAfter (steps : List Action) (h0 : Bool) : Bool :=
  steps.foldl (fun b s => nextHeld s b) h0

/-- Whether the action is a blocking line read. -/
def isBlockingRead : Action → Bool
  | Action.blockingReadLine _ => true
  | _ => false

/-- Whether some blocking line read in the action sequence happens
while the table lock is held. -/
def blockingReadWhileLocked : List Action → Bool → Bool
  | [], _ => false
  | s :: rest, held =>
    (held && isBlockingRead s) || blockingReadWhileLocked rest (nextHeld s held)

/-- Whether a task with the given remaining actions can take its next
step, given the lock state and whether a line of data is available for
a blocking read: acquiring the lock needs the lock free, a blocking
read needs data, everything else proceeds. -/
def canStep (lockHeld : Bool) (dataReady : Bool) : List Action → Bool
  | [] => false
  | s :: _ =>
    match s with
    | Action.lockAcquire => !lockHeld
    | Action.blockingReadLine _ => dataReady
    | _ => true

/-! Basic facts about the table operations. -/

theorem mapGet_mapRemove_self (st : ProcessMap) (k : String) :
    mapGet (mapRemove st k) k = none := by
  induction st with
  | nil => rfl
  | cons e rest ih =>
    by_cases h : e.1 = k
    · simp [mapRemove, h, ih]
    · simp [mapRemove, mapGet, h, ih]

theorem mapGet_mapInsert_self (st : ProcessMap) (k : String) (v : ManagedProcess) :
    mapGet (mapInsert st k v) k = some v := by
  simp [mapInsert, mapGet]

theorem mapGet_eq_some_mem : ∀ {st : ProcessMap} {k : String} {p : ManagedProcess},
    mapGet st k = some p → (k, p) ∈ st := by
  intro st
  induction st with
  | nil => intro k p h; simp [mapGet] at h
  | cons e rest ih =>
    intro k p h
    rw [mapGet] at h
    by_cases hk : e.1 = k
    · rw [if_pos hk] at h
      injection h with h2
      subst hk; subst h2
      simp
    · rw [if_neg hk] at h
      exact List.mem_cons_of_mem _ (ih h)

theorem mem_mapRemove : ∀ {st : ProcessMap} {k : String} {e : String × ManagedProcess},
    e ∈ mapRemove st k → e ∈ st ∧ e.1 ≠ k := by
  intro st
  induction st with
  | nil => intro k e h; simp [mapRemove] at h
  | cons e0 rest ih =>
    intro k e h
    rw [mapRemove] at h
    by_cases hk : e0.1 = k
    · rw [if_pos hk] at h
      obtain ⟨h1, h2⟩ := ih h
      exact ⟨List.mem_cons_of_mem _ h1, h2⟩
    · rw [if_neg hk] at h
      rcases List.mem_cons.mp h with h0 | h0
      · subst h0; exact ⟨List.mem_cons_self _ _, hk⟩
      · obtain ⟨h1, h2⟩ := ih h0
        exact ⟨List.mem_cons_of_mem _ h1, h2⟩

theorem mem_mapInsert {st : ProcessMap} {k : String} {v : ManagedProcess}
    {e : String × ManagedProcess} (h : e ∈ mapInsert st k v) :
    e = (k, v) ∨ e ∈ st := by
  rcases List.mem_cons.mp h with h0 | h0
  · exact Or.inl h0
  · exact Or.inr (mem_mapRemove h0).1

/-! Claim theorems: error handling of spawn, lookup and kill. -/

/-- C4: whenever the OS launch fails or either pipe endpoint cannot be
captured, spawn_process returns an error and leaves the Process Table
exactly as it was: no entry inserted, no entry modified. -/
theorem spawn_failure_no_table_mutation (env : SpawnResult) (uuid ptype cmd : String)
    (args : List String) (st : ProcessMap) (hfail : spawnFails env = true) :
    (∃ e, (spawn_process env uuid ptype cmd args st).1 = Except.error e) ∧
    (spawn_process env uuid ptype cmd args st).2 = st := by
  cases env with
  | launchError => exact ⟨⟨PError.spawnFailed cmd, rfl⟩, rfl⟩
  | spawned c =>
    rw [spawnFails, Bool.or_eq_true, Bool.not_eq_true', Bool.not_eq_true'] at hfail
    rcases hfail with h | h
    · simp [spawn_process, h]
    · cases hsi : c.stdinPipe with
      | false => simp [spawn_process, hsi]
      | true => simp [spawn_process, hsi, h]

/-- Witness for C4: a concrete launch failure leaves the empty table
untouched. -/
theorem spawn_failure_no_table_mutation_w :
    spawnFails SpawnResult.launchError = true ∧
    ((∃ e, (spawn_process SpawnResult.launchError "u" "mcp" "c" [] create_process_map).1
        = Except.error e) ∧
     (spawn_process SpawnResult.launchError "u" "mcp" "c" [] create_process_map).2
        = create_process_map) :=
  ⟨rfl, spawn_failure_no_table_mutation SpawnResult.launchError "u" "mcp" "c" []
    create_process_map rfl⟩

/-- C5: on a handle absent from the table, send, receive, kill and get
all fail with the not-found error; and after a kill on a present
handle, a second kill on the same handle fails with not-found. -/
theorem not_found_closure (h : String) (m : Str) (ko ko2 : KillOutcome) :
    (∀ st, mapGet st h = none →
      (send_mcp_message h m st).1 = Except.error (PError.notFound h) ∧
      read_mcp_response h st = some (Except.error (PError.notFound h), st) ∧
      (kill_process h ko st).1 = Except.error (PError.notFound h) ∧
      get_process_info h st = Except.error (PError.notFound h)) ∧
    (∀ st p, mapGet st h = some p →
      (kill_process h ko2 (kill_process h ko st).2).1
        = Except.error (PError.notFound h)) := by
  constructor
  · intro st hab
    refine ⟨?_, ?_, ?_, ?_⟩ <;>
      simp [send_mcp_message, read_mcp_response, kill_process, get_process_info, hab]
  · intro st p hp
    have h1 : (kill_process h ko st).2 = mapRemove st h := by
      simp only [kill_process, hp]
      cases ko <;> rfl
    rw [h1]
    simp [kill_process, mapGet_mapRemove_self]

/-- Witness for C5: the four operations on handle "h" over the empty
table, and a second kill after a kill on a one-entry table. -/
theorem not_found_closure_w :
    (mapGet create_process_map "h" = none ∧
      (send_mcp_message "h" ['x'] create_process_map).1
        = Except.error (PError.notFound "h")) ∧
    (mapGet [("h", ⟨⟨"h", "mcp", "c", []⟩, 0, some ⟨[]⟩, some ⟨[], false⟩⟩)] "h"
        = some ⟨⟨"h", "mcp", "c", []⟩, 0, some ⟨[]⟩, some ⟨[], false⟩⟩ ∧
      (kill_process "h" KillOutcome.ok
        (kill_process "h" KillOutcome.ok
          [("h", ⟨⟨"h", "mcp", "c", []⟩, 0, some ⟨[]⟩, some ⟨[], false⟩⟩)]).2).1
        = Except.error (PError.notFound "h")) :=
  ⟨⟨rfl, ((not_found_closure "h" ['x'] KillOutcome.ok KillOutcome.ok).1
      create_process_map rfl).1⟩,
   ⟨rfl, (not_found_closure "h" ['x'] KillOutcome.ok KillOutcome.ok).2
      [("h", ⟨⟨"h", "mcp", "c", []⟩, 0, some ⟨[]⟩, some ⟨[], false⟩⟩)]
      ⟨⟨"h", "mcp", "c", []⟩, 0, some ⟨[]⟩, some ⟨[], false⟩⟩ rfl⟩⟩

theorem takeLine_eq_none {s : Str} (h : newline ∉ s) : takeLine s = none := by
  induction s with
  | nil => rfl
  | cons c cs ih =>
    rw [List.mem_cons] at h
    push_neg at h
    rw [takeLine, if_neg (fun hc => h.1 hc.symm), ih h.2]

/-- C6: when the child has closed its stdout and no full line is
buffered, read_mcp_response on a live handle returns success carrying
the remaining (possibly empty) partial line, rather than an error or a
suspension. -/
theorem eof_read_returns_ok {st : ProcessMap} {cid : String} {p : ManagedProcess}
    {op : OutPipe} (hp : mapGet st cid = some p) (hr : p.stdout_reader = some op)
    (hc : op.closed = true) (hnl : newline ∉ op.buf) :
    read_mcp_response cid st =
      some (Except.ok op.buf,
        mapInsert st cid { p with stdout_reader := some { op with buf := [] } }) := by
  simp [read_mcp_response, hp, hr, readLineFrom, takeLine_eq_none hnl, hc]

/-- Witness for C6: a closed stdout holding the partial line "x" is
returned as a successful read. -/
theorem eof_read_returns_ok_w :
    (mapGet [("h", ⟨⟨"h", "cli", "c", []⟩, 0, some ⟨[]⟩, some ⟨['x'], true⟩⟩)] "h"
        = some ⟨⟨"h", "cli", "c", []⟩, 0, some ⟨[]⟩, some ⟨['x'], true⟩⟩ ∧
      newline ∉ (['x'] : Str)) ∧
    read_mcp_response "h" [("h", ⟨⟨"h", "cli", "c", []⟩, 0, some ⟨[]⟩, some ⟨['x'], true⟩⟩)]
      = some (Except.ok ['x'],
          mapInsert [("h", ⟨⟨"h", "cli", "c", []⟩, 0, some ⟨[]⟩, some ⟨['x'], true⟩⟩)] "h"
            ⟨⟨"h", "cli", "c", []⟩, 0, some ⟨[]⟩, some ⟨[], true⟩⟩) :=
  ⟨⟨rfl, by decide⟩,
   @eof_read_returns_ok [("h", ⟨⟨"h", "cli", "c", []⟩, 0, some ⟨[]⟩, some ⟨['x'], true⟩⟩)]
     "h" ⟨⟨"h", "cli", "c", []⟩, 0, some ⟨[]⟩, some ⟨['x'], true⟩⟩ ⟨['x'], true⟩
     rfl rfl rfl (by decide)⟩

/-- C7: send on a live handle appends exactly the message followed by
one newline to the entry stdin pipe, flushes, and succeeds; the
descriptor, the child and the stdout reader are untouched and no other
byte is written. -/
theorem send_writes_exactly_one_line {st : ProcessMap} {cid : String} {p : ManagedProcess}
    {ip : InPipe} (m : Str) (hp : mapGet st cid = some p) (hs : p.stdin = some ip) :
    (send_mcp_message cid m st).1 = Except.ok () ∧
    mapGet (send_mcp_message cid m st).2 cid =
      some { p with stdin := some { buf := ip.buf ++ m ++ [newline] } } := by
  simp [send_mcp_message, hp, hs, mapGet_mapInsert_self]

/-- Witness for C7: sending "hi" to a fresh entry leaves exactly the
bytes of "hi" plus one newline in its stdin pipe. -/
theorem send_writes_exactly_one_line_w :
    (mapGet [("h", ⟨⟨"h", "mcp", "c", []⟩, 0, some ⟨[]⟩, some ⟨[], false⟩⟩)] "h"
        = some ⟨⟨"h", "mcp", "c", []⟩, 0, some ⟨[]⟩, some ⟨[], false⟩⟩) ∧
    ((send_mcp_message "h" ['h', 'i']
        [("h", ⟨⟨"h", "mcp", "c", []⟩, 0, some ⟨[]⟩, some ⟨[], false⟩⟩)]).1 = Except.ok () ∧
     mapGet (send_mcp_message "h" ['h', 'i']
        [("h", ⟨⟨"h", "mcp", "c", []⟩, 0, some ⟨[]⟩, some ⟨[], false⟩⟩)]).2 "h"
      = some ⟨⟨"h", "mcp", "c", []⟩, 0, some ⟨['h', 'i', newline]⟩, some ⟨[], false⟩⟩) :=
  ⟨rfl,
   @send_writes_exactly_one_line
     [("h", ⟨⟨"h", "mcp", "c", []⟩, 0, some ⟨[]⟩, some ⟨[], false⟩⟩)] "h"
     ⟨⟨"h", "mcp", "c", []⟩, 0, some ⟨[]⟩, some ⟨[], false⟩⟩ ⟨[]⟩
     ['h', 'i'] rfl rfl⟩

/-- C9: kill on a present handle removes the table entry before the
termination attempt, so even when termination fails the handle is gone
from the table and every later send, receive, kill or get on it fails
with not-found; the failed kill cannot be retried. -/
theorem kill_removes_entry_unconditionally {st : ProcessMap} {cid : String}
    {p : ManagedProcess} (ko : KillOutcome) (m : Str) (hp : mapGet st cid = some p) :
    mapGet (kill_process cid ko st).2 cid = none ∧
    (ko = KillOutcome.failed →
      (kill_process cid ko st).1 = Except.error PError.killFailed) ∧
    (send_mcp_message cid m (kill_process cid ko st).2).1
      = Except.error (PError.notFound cid) ∧
    read_mcp_response cid (kill_process cid ko st).2
      = some (Except.error (PError.notFound cid), (kill_process cid ko st).2) ∧
    (kill_process cid ko (kill_process cid ko st).2).1
      = Except.error (PError.notFound cid) ∧
    get_process_info cid (kill_process cid ko st).2
      = Except.error (PError.notFound cid) := by
  have h2 : (kill_process cid ko st).2 = mapRemove st cid := by
    simp only [kill_process, hp]
    cases ko <;> rfl
  rw [h2]
  refine ⟨mapGet_mapRemove_self st cid, ?_, ?_, ?_, ?_, ?_⟩
  · intro hko
    subst hko
    simp only [kill_process, hp]
  · simp [send_mcp_message, mapGet_mapRemove_self]
  · simp [read_mcp_response, mapGet_mapRemove_self]
  · simp [kill_process, mapGet_mapRemove_self]
  · simp [get_process_info, mapGet_mapRemove_self]

/-- Witness for C9: a failed kill on a one-entry table still empties
the table and makes a retry fail with not-found. -/
theorem kill_removes_entry_unconditionally_w :
    (mapGet [("h", ⟨⟨"h", "mcp", "c", []⟩, 0, some ⟨[]⟩, some ⟨[], false⟩⟩)] "h"
        = some ⟨⟨"h", "mcp", "c", []⟩, 0, some ⟨[]⟩, some ⟨[], false⟩⟩) ∧
    mapGet (kill_process "h" KillOutcome.failed
        [("h", ⟨⟨"h", "mcp", "c", []⟩, 0, some ⟨[]⟩, some ⟨[], false⟩⟩)]).2 "h" = none ∧
    (kill_process "h" KillOutcome.failed
        [("h", ⟨⟨"h", "mcp", "c", []⟩, 0, some ⟨[]⟩, some ⟨[], false⟩⟩)]).1
      = Except.error PError.killFailed ∧
    (kill_process "h" KillOutcome.failed
        (kill_process "h" KillOutcome.failed
          [("h", ⟨⟨"h", "mcp", "c", []⟩, 0, some ⟨[]⟩, some ⟨[], false⟩⟩)]).2).1
      = Except.error (PError.notFound "h") :=
  ⟨rfl,
   (@kill_removes_entry_unconditionally
     [("h", ⟨⟨"h", "mcp", "c", []⟩, 0, some ⟨[]⟩, some ⟨[], false⟩⟩)] "h"
     ⟨⟨"h", "mcp", "c", []⟩, 0, some ⟨[]⟩, some ⟨[], false⟩⟩
     KillOutcome.failed ['x'] rfl).1,
   (@kill_removes_entry_unconditionally
     [("h", ⟨⟨"h", "mcp", "c", []⟩, 0, some ⟨[]⟩, some ⟨[], false⟩⟩)] "h"
     ⟨⟨"h", "mcp", "c", []⟩, 0, some ⟨[]⟩, some ⟨[], false⟩⟩
     KillOutcome.failed ['x'] rfl).2.1 rfl,
   (@kill_removes_entry_unconditionally
     [("h", ⟨⟨"h", "mcp", "c", []⟩, 0, some ⟨[]⟩, some ⟨[], false⟩⟩)] "h"
     ⟨⟨"h", "mcp", "c", []⟩, 0, some ⟨[]⟩, some ⟨[], false⟩⟩
     KillOutcome.failed ['x'] rfl).2.2.2.2.1⟩

/-! Round-trip framing through an echo child. -/

theorem takeLine_append_newline {m : Str} (hm : newline ∉ m) (rest : Str) :
    takeLine (m ++ newline :: rest) = some (m ++ [newline], rest) := by
  induction m with
  | nil => simp [takeLine]
  | cons c cs ih =>
    rw [List.mem_cons] at hm
    push_neg at hm
    rw [List.cons_append, takeLine, if_neg (fun hc => hm.1 hc.symm), ih hm.2]
    rfl

theorem sendAll_ok : ∀ (ms : List Str) (st : ProcessMap) (h : String)
    (p : ManagedProcess) (ip : InPipe),
    mapGet st h = some p → p.stdin = some ip →
    (sendAll h ms st).1 = Except.ok () ∧
    mapGet (sendAll h ms st).2 h
      = some { p with stdin := some { buf := ip.buf ++ framed ms } } := by
  intro ms
  induction ms with
  | nil =>
    intro st h p ip hp hs
    refine ⟨rfl, ?_⟩
    rcases p with ⟨info, child, stdin, stdout⟩
    cases hs
    simpa [framed] using hp
  | cons m rest ih =>
    intro st h p ip hp hs
    have hsend : send_mcp_message h m st
        = (Except.ok (),
           mapInsert st h { p with stdin := some { buf := ip.buf ++ m ++ [newline] } }) := by
      simp [send_mcp_message, hp, hs]
    rw [sendAll, hsend]
    obtain ⟨h1, h2⟩ := ih
      (mapInsert st h { p with stdin := some { buf := ip.buf ++ m ++ [newline] } }) h
      { p with stdin := some { buf := ip.buf ++ m ++ [newline] } }
      { buf := ip.buf ++ m ++ [newline] }
      (mapGet_mapInsert_self st h _) rfl
    refine ⟨h1, ?_⟩
    rw [h2]
    simp [framed, List.append_assoc]

theorem receiveAll_framed : ∀ (ms : List Str) (st : ProcessMap) (h : String)
    (p : ManagedProcess) (op : OutPipe),
    mapGet st h = some p → p.stdout_reader = some op →
    op.buf = framed ms → (∀ m ∈ ms, newline ∉ m) →
    ∃ st2, receiveAll h ms.length st
      = some (ms.map (fun m => m ++ [newline]), st2) := by
  intro ms
  induction ms with
  | nil =>
    intro st h p op hp hr hb hnl
    exact ⟨st, rfl⟩
  | cons m rest ih =>
    intro st h p op hp hr hb hnl
    have hm : newline ∉ m := hnl m (List.mem_cons_self _ _)
    have hread : read_mcp_response h st
        = some (Except.ok (m ++ [newline]),
            mapInsert st h
              { p with stdout_reader := some { op with buf := framed rest } }) := by
      simp [read_mcp_response, hp, hr, readLineFrom, hb, framed,
        takeLine_append_newline hm]
    have hstep : receiveAll h (m :: rest).length st
        = match receiveAll h rest.length
            (mapInsert st h
              { p with stdout_reader := some { op with buf := framed rest } }) with
          | some (ls, st3) => some ((m ++ [newline]) :: ls, st3)
          | none => none := by
      rw [List.length_cons, receiveAll, hread]
    obtain ⟨st2, h2⟩ := ih
      (mapInsert st h { p with stdout_reader := some { op with buf := framed rest } }) h
      { p with stdout_reader := some { op with buf := framed rest } }
      { op with buf := framed rest }
      (mapGet_mapInsert_self st h _) rfl rfl
      (fun x hx => hnl x (List.mem_cons_of_mem _ hx))
    rw [hstep, h2]
    exact ⟨st2, rfl⟩

theorem round_trip_core (hnd ptype cmd : String) (args : List String) (pid : Nat)
    (st0 : ProcessMap) (ms : List Str) (hnl : ∀ m ∈ ms, newline ∉ m) :
    (sendAll hnd ms (mapInsert st0 hnd
        ⟨⟨hnd, ptype, cmd, args⟩, pid, some ⟨[]⟩, some ⟨[], false⟩⟩)).1
      = Except.ok () ∧
    ∃ st2, receiveAll hnd ms.length (echoStep hnd (sendAll hnd ms (mapInsert st0 hnd
        ⟨⟨hnd, ptype, cmd, args⟩, pid, some ⟨[]⟩, some ⟨[], false⟩⟩)).2)
      = some (ms.map (fun m => m ++ [newline]), st2) := by
  obtain ⟨h1, h2⟩ := sendAll_ok ms
    (mapInsert st0 hnd ⟨⟨hnd, ptype, cmd, args⟩, pid, some ⟨[]⟩, some ⟨[], false⟩⟩) hnd
    ⟨⟨hnd, ptype, cmd, args⟩, pid, some ⟨[]⟩, some ⟨[], false⟩⟩ ⟨[]⟩
    (mapGet_mapInsert_self _ _ _) rfl
  refine ⟨h1, ?_⟩
  have hecho : echoStep hnd (sendAll hnd ms (mapInsert st0 hnd
        ⟨⟨hnd, ptype, cmd, args⟩, pid, some ⟨[]⟩, some ⟨[], false⟩⟩)).2
      = mapInsert (sendAll hnd ms (mapInsert st0 hnd
          ⟨⟨hnd, ptype, cmd, args⟩, pid, some ⟨[]⟩, some ⟨[], false⟩⟩)).2 hnd
          ⟨⟨hnd, ptype, cmd, args⟩, pid, some ⟨[]⟩, some ⟨framed ms, false⟩⟩ := by
    rw [echoStep, h2]
    rfl
  rw [hecho]
  exact receiveAll_framed ms _ hnd
    ⟨⟨hnd, ptype, cmd, args⟩, pid, some ⟨[]⟩, some ⟨framed ms, false⟩⟩
    ⟨framed ms, false⟩ (mapGet_mapInsert_self _ _ _) rfl rfl hnl

/-- C2: if the spawned child echoes each input line back unchanged,
then after sending the line-framed messages m1 .. mn in order, the n
successive receive calls return m1 .. mn in the same order, each
returned line being exactly the message plus the framing newline that
send appended (so each message is exactly reproduced once that newline
is removed). -/
theorem round_trip_framing (c : ChildHandles) (uuid ptype cmd : String)
    (args : List String) (st0 st1 : ProcessMap) (hnd : String) (ms : List Str)
    (hsi : c.stdinPipe = true) (hso : c.stdoutPipe = true)
    (hnl : ∀ m ∈ ms, newline ∉ m)
    (hsp : spawn_process (SpawnResult.spawned c) uuid ptype cmd args st0
      = (Except.ok hnd, st1)) :
    (sendAll hnd ms st1).1 = Except.ok () ∧
    ∃ st2, receiveAll hnd ms.length (echoStep hnd (sendAll hnd ms st1).2)
      = some (ms.map (fun m => m ++ [newline]), st2) := by
  simp only [spawn_process, hsi, hso, if_true, Prod.mk.injEq, Except.ok.injEq] at hsp
  obtain ⟨hu, hst⟩ := hsp
  rw [← hst, ← hu]
  exact round_trip_core uuid ptype cmd args c.pid st0 ms hnl

/-- Witness for C2: sending "a" then "b" to a freshly spawned echo
child and receiving twice returns the lines "a" and "b", each with its
framing newline. -/
theorem round_trip_framing_w :
    ((⟨0, true, true⟩ : ChildHandles).stdinPipe = true ∧
     (∀ m ∈ ([['a'], ['b']] : List Str), newline ∉ m) ∧
     spawn_process (SpawnResult.spawned ⟨0, true, true⟩) "u" "mcp" "c" [] []
       = (Except.ok "u",
          [("u", ⟨⟨"u", "mcp", "c", []⟩, 0, some ⟨[]⟩, some ⟨[], false⟩⟩)])) ∧
    (sendAll "u" [['a'], ['b']]
        [("u", ⟨⟨"u", "mcp", "c", []⟩, 0, some ⟨[]⟩, some ⟨[], false⟩⟩)]).1
      = Except.ok () ∧
    ∃ st2, receiveAll "u" ([['a'], ['b']] : List Str).length
        (echoStep "u" (sendAll "u" [['a'], ['b']]
          [("u", ⟨⟨"u", "mcp", "c", []⟩, 0, some ⟨[]⟩, some ⟨[], false⟩⟩)]).2)
      = some (([['a'], ['b']] : List Str).map (fun m => m ++ [newline]), st2) :=
  ⟨⟨rfl, by decide, rfl⟩,
   round_trip_framing ⟨0, true, true⟩ "u" "mcp" "c" [] [] _ "u" [['a'], ['b']]
     rfl rfl (by decide) rfl⟩

/-! The table invariant holds along every reachable execution. -/

theorem spawn_preserves_good {st : ProcessMap} (hg : goodTable st)
    (env : SpawnResult) (uuid ptype cmd : String) (args : List String)
    (hty : ptype = "mcp" ∨ ptype = "cli") :
    goodTable (spawn_process env uuid ptype cmd args st).2 := by
  cases env with
  | launchError => exact hg
  | spawned c =>
    cases hsi : c.stdinPipe with
    | false => simpa [spawn_process, hsi] using hg
    | true =>
      cases hso : c.stdoutPipe with
      | false => simpa [spawn_process, hsi, hso] using hg
      | true =>
        intro e he
        simp only [spawn_process, hsi, hso, if_true] at he
        rcases mem_mapInsert he with h0 | h0
        · subst h0
          exact ⟨rfl, hty, rfl, rfl⟩
        · exact hg e h0

theorem send_preserves_good {st : ProcessMap} (hg : goodTable st)
    (cid : String) (m : Str) :
    goodTable (send_mcp_message cid m st).2 := by
  cases hp : mapGet st cid with
  | none => simpa [send_mcp_message, hp] using hg
  | some p =>
    cases hs : p.stdin with
    | none => simpa [send_mcp_message, hp, hs] using hg
    | some ip =>
      intro e he
      simp only [send_mcp_message, hp, hs] at he
      rcases mem_mapInsert he with h0 | h0
      · have hgp := hg (cid, p) (mapGet_eq_some_mem hp)
        subst h0
        exact ⟨hgp.1, hgp.2.1, rfl, hgp.2.2.2⟩
      · exact hg e h0

theorem read_preserves_good {st st2 : ProcessMap} {r : Except PError Str}
    (hg : goodTable st) (cid : String)
    (hrd : read_mcp_response cid st = some (r, st2)) : goodTable st2 := by
  cases hp : mapGet st cid with
  | none =>
    simp only [read_mcp_response, hp, Option.some.injEq, Prod.mk.injEq] at hrd
    rw [← hrd.2]; exact hg
  | some p =>
    cases hs : p.stdout_reader with
    | none =>
      simp only [read_mcp_response, hp, hs, Option.some.injEq, Prod.mk.injEq] at hrd
      rw [← hrd.2]; exact hg
    | some op =>
      cases hl : readLineFrom op with
      | none => simp [read_mcp_response, hp, hs, hl] at hrd
      | some lr =>
        simp only [read_mcp_response, hp, hs, hl, Option.some.injEq,
          Prod.mk.injEq] at hrd
        intro e he
        rw [← hrd.2] at he
        rcases mem_mapInsert he with h0 | h0
        · have hgp := hg (cid, p) (mapGet_eq_some_mem hp)
          subst h0
          exact ⟨hgp.1, hgp.2.1, hgp.2.2.1, rfl⟩
        · exact hg e h0

theorem kill_preserves_good {st : ProcessMap} (hg : goodTable st)
    (cid : String) (ko : KillOutcome) :
    goodTable (kill_process cid ko st).2 := by
  cases hp : mapGet st cid with
  | none => simpa [kill_process, hp] using hg
  | some p =>
    have h2 : (kill_process cid ko st).2 = mapRemove st cid := by
      simp only [kill_process, hp]
      cases ko <;> rfl
    rw [h2]
    intro e he
    exact hg e (mem_mapRemove he).1

theorem reachable_good {st : ProcessMap} (hr : Reachable st) : goodTable st := by
  induction hr with
  | init => intro e he; simp [create_process_map] at he
  | spawnMcp env uuid command args _ ih =>
    exact spawn_preserves_good ih env uuid "mcp" command args (Or.inl rfl)
  | spawnCli env uuid tool args _ ih =>
    exact spawn_preserves_good ih env uuid "cli" tool args (Or.inr rfl)
  | sendMsg cid m _ ih => exact send_preserves_good ih cid m
  | readResp cid _ heq ih => exact read_preserves_good ih cid heq
  | killProc cid ko _ ih => exact kill_preserves_good ih cid ko

/-! Claim theorems: descriptor kinds, pipe availability, listing. -/

/-- Counterexample to C1 as stated: the descriptor of a process
spawned through spawn_mcp_server carries process type "mcp", which is
neither "mcp-server" nor "cli-agent". -/
theorem descriptor_kind_cex :
    ∃ i, get_process_info "u"
        (spawn_mcp_server (SpawnResult.spawned ⟨0, true, true⟩) "u" "c" []
          create_process_map).2 = Except.ok i ∧
      ¬ (i.process_type = "mcp-server" ∨ i.process_type = "cli-agent") :=
  ⟨⟨"u", "mcp", "c", []⟩, rfl, by decide⟩

/-- C1 amended: every descriptor stored by the two spawn wrappers and
returned by list or get over any reachable table has process type
"mcp" (spawn_mcp_server) or "cli" (spawn_cli_agent), the two tags the
code actually uses in place of "mcp-server" and "cli-agent". -/
theorem descriptor_kind_amended {st : ProcessMap} (hr : Reachable st) :
    (∀ i ∈ list_processes st, i.process_type = "mcp" ∨ i.process_type = "cli") ∧
    (∀ cid i, get_process_info cid st = Except.ok i →
      i.process_type = "mcp" ∨ i.process_type = "cli") := by
  have hg := reachable_good hr
  constructor
  · intro i hi
    rw [list_processes, List.mem_map] at hi
    obtain ⟨e, he, hei⟩ := hi
    exact hei ▸ (hg e he).2.1
  · intro cid i hi
    cases hp : mapGet st cid with
    | none => simp [get_process_info, hp] at hi
    | some p =>
      simp only [get_process_info, hp, Except.ok.injEq] at hi
      subst hi
      exact (hg (cid, p) (mapGet_eq_some_mem hp)).2.1

/-- Witness for C1 amended: the descriptor listed right after a
concrete spawn_mcp_server call carries the tag "mcp". -/
theorem descriptor_kind_amended_w :
    (⟨"u", "mcp", "c", []⟩ : ProcessInfo) ∈ list_processes
        (spawn_mcp_server (SpawnResult.spawned ⟨0, true, true⟩) "u" "c" []
          create_process_map).2 ∧
    ((⟨"u", "mcp", "c", []⟩ : ProcessInfo).process_type = "mcp" ∨
     (⟨"u", "mcp", "c", []⟩ : ProcessInfo).process_type = "cli") :=
  ⟨by decide,
   (descriptor_kind_amended
      (Reachable.spawnMcp (SpawnResult.spawned ⟨0, true, true⟩) "u" "c" []
        Reachable.init)).1 ⟨"u", "mcp", "c", []⟩ (by decide)⟩

/-- C10: in every reachable table each entry keeps both its stdin
writer and its stdout reader present, so for a handle present in the
table send can never fail with the stdin-not-available error and
receive can never fail with the stdout-not-available error. -/
theorem pipes_always_available {st : ProcessMap} (hr : Reachable st) (cid : String)
    (m : Str) (p : ManagedProcess) (hp : mapGet st cid = some p) :
    p.stdin.isSome = true ∧ p.stdout_reader.isSome = true ∧
    (send_mcp_message cid m st).1 ≠ Except.error PError.stdinNotAvailable ∧
    (∀ r st2, read_mcp_response cid st = some (r, st2) →
      r ≠ Except.error PError.stdoutNotAvailable) := by
  obtain ⟨-, -, h1, h2⟩ := reachable_good hr (cid, p) (mapGet_eq_some_mem hp)
  refine ⟨h1, h2, ?_, ?_⟩
  · cases hs : p.stdin with
    | none => rw [hs] at h1; simp at h1
    | some ip => simp [send_mcp_message, hp, hs]
  · intro r st2 hread
    cases hs : p.stdout_reader with
    | none => rw [hs] at h2; simp at h2
    | some op =>
      cases hl : readLineFrom op with
      | none => simp [read_mcp_response, hp, hs, hl] at hread
      | some lr =>
        simp only [read_mcp_response, hp, hs, hl, Option.some.injEq,
          Prod.mk.injEq] at hread
        rw [← hread.1]
        simp

/-- Witness for C10: the entry created by a concrete spawn keeps both
pipe ends and neither unavailable-pipe error can occur on it. -/
theorem pipes_always_available_w :
    (mapGet (spawn_mcp_server (SpawnResult.spawned ⟨0, true, true⟩) "u" "c" []
        create_process_map).2 "u"
      = some ⟨⟨"u", "mcp", "c", []⟩, 0, some ⟨[]⟩, some ⟨[], false⟩⟩) ∧
    ((⟨⟨"u", "mcp", "c", []⟩, 0, some ⟨[]⟩, some ⟨[], false⟩⟩ :
        ManagedProcess).stdin.isSome = true ∧
     (⟨⟨"u", "mcp", "c", []⟩, 0, some ⟨[]⟩, some ⟨[], false⟩⟩ :
        ManagedProcess).stdout_reader.isSome = true ∧
     (send_mcp_message "u" ['x'] (spawn_mcp_server (SpawnResult.spawned ⟨0, true, true⟩)
        "u" "c" [] create_process_map).2).1 ≠ Except.error PError.stdinNotAvailable ∧
     (∀ r st2, read_mcp_response "u" (spawn_mcp_server (SpawnResult.spawned ⟨0, true, true⟩)
        "u" "c" [] create_process_map).2 = some (r, st2) →
       r ≠ Except.error PError.stdoutNotAvailable)) :=
  ⟨rfl,
   pipes_always_available
     (Reachable.spawnMcp (SpawnResult.spawned ⟨0, true, true⟩) "u" "c" []
       Reachable.init)
     "u" ['x'] ⟨⟨"u", "mcp", "c", []⟩, 0, some ⟨[]⟩, some ⟨[], false⟩⟩ rfl⟩

/-- C8: immediately after a successful spawn returning handle H the
listing contains a descriptor whose handle equals H, and immediately
after a successful kill of a handle on a reachable table the listing
contains no descriptor with that handle. -/
theorem list_consistency (env : SpawnResult) (uuid ptype cmd : String)
    (args : List String) (st st1 : ProcessMap) (hnd : String)
    (hsp : spawn_process env uuid ptype cmd args st = (Except.ok hnd, st1)) :
    (∃ i ∈ list_processes st1, i.connection_id = hnd) ∧
    (∀ st0 cid ko, Reachable st0 → (kill_process cid ko st0).1 = Except.ok () →
      ∀ i ∈ list_processes (kill_process cid ko st0).2, i.connection_id ≠ cid) := by
  constructor
  · cases env with
    | launchError => simp [spawn_process] at hsp
    | spawned c =>
      cases hsi : c.stdinPipe with
      | false => simp [spawn_process, hsi] at hsp
      | true =>
        cases hso : c.stdoutPipe with
        | false => simp [spawn_process, hsi, hso] at hsp
        | true =>
          simp only [spawn_process, hsi, hso, if_true, Prod.mk.injEq,
            Except.ok.injEq] at hsp
          obtain ⟨hu, hst⟩ := hsp
          rw [← hst, ← hu]
          refine ⟨⟨uuid, ptype, cmd, args⟩, ?_, rfl⟩
          simp [list_processes, mapInsert]
  · intro st0 cid ko hr0 hk i hi
    have hg := reachable_good hr0
    cases hp : mapGet st0 cid with
    | none => simp [kill_process, hp] at hk
    | some p =>
      have h2 : (kill_process cid ko st0).2 = mapRemove st0 cid := by
        simp only [kill_process, hp]
        cases ko <;> rfl
      rw [h2, list_processes, List.mem_map] at hi
      obtain ⟨e, he, hei⟩ := hi
      obtain ⟨hmem, hne⟩ := mem_mapRemove he
      intro hic
      apply hne
      rw [← (hg e hmem).1, hei, hic]

/-- Witness for C8: a concrete spawn puts its handle in the listing,
and a concrete kill takes it out. -/
theorem list_consistency_w :
    (spawn_process (SpawnResult.spawned ⟨0, true, true⟩) "u" "mcp" "c" []
        create_process_map
      = (Except.ok "u",
         [("u", ⟨⟨"u", "mcp", "c", []⟩, 0, some ⟨[]⟩, some ⟨[], false⟩⟩)])) ∧
    ((∃ i ∈ list_processes
        [("u", ⟨⟨"u", "mcp", "c", []⟩, 0, some ⟨[]⟩, some ⟨[], false⟩⟩)],
        i.connection_id = "u") ∧
     (∀ st0 cid ko, Reachable st0 → (kill_process cid ko st0).1 = Except.ok () →
       ∀ i ∈ list_processes (kill_process cid ko st0).2, i.connection_id ≠ cid)) :=
  ⟨rfl,
   list_consistency (SpawnResult.spawned ⟨0, true, true⟩) "u" "mcp" "c" []
     create_process_map
     [("u", ⟨⟨"u", "mcp", "c", []⟩, 0, some ⟨[]⟩, some ⟨[], false⟩⟩)] "u" rfl⟩

/-! Claim theorems: the lock discipline of receive. -/

/-- Counterexample to C3 as stated: in the action sequence of
read_mcp_response on a concrete handle, the blocking line read does
happen while the table-wide lock is held. -/
theorem receive_lock_cex :
    ¬ blockingReadWhileLocked (read_steps "a") false = false := by decide

/-- C3 amended: read_mcp_response performs its blocking line read
while holding the table-wide lock; while it is suspended there with
the lock held, neither it nor a fresh send, kill or receive on any
other handle can take a step, so a blocked receive on handle A does
block every concurrent table operation on any handle B. -/
theorem receive_blocks_table (h h2 : String) :
    blockingReadWhileLocked (read_steps h) false = true ∧
    read_steps h = [Action.lockAcquire, Action.lookup h]
        ++ [Action.blockingReadLine h, Action.lockRelease] ∧
    heldAfter [Action.lockAcquire, Action.lookup h] false = true ∧
    canStep true false [Action.blockingReadLine h, Action.lockRelease] = false ∧
    canStep true false (send_steps h2) = false ∧
    canStep true false (kill_steps h2) = false ∧
    canStep true false (read_steps h2) = false :=
  ⟨rfl, rfl, rfl, rfl, rfl, rfl, rfl⟩

end ProcessManager
